import Mathlib

/-!
Verification of the rl-2048 environment (src/rl_2048/__init__.py).

The repository wraps a browser-rendered 2048 game (driven through a
Selenium `Chrome` session) as a step-based reinforcement-learning
environment.  The shallow embedding below models the pieces the claims
are about:

* Python string/int primitives used by the code
  (`int(...)`, `str.replace(old, '')`, list indexing with negative
  indices);
* the rendered DOM as supplied data: the score container's text with an
  optional child element of class score-addition, the tile nodes found
  for a board position on each attempt of the retry loop, and the
  optional game-over marker;
* the methods `get_score`, `get_state`, `is_over` and `step` of
  `Game2048`, with `step` additionally recording the ordered trace of
  Session interactions it performs.

Strings are modelled as `List Char`.  The unbounded per-cell retry loop
of `get_state` is modelled with an explicit fuel; `none` means the loop
has not yet resolved within the given fuel (the real loop would still be
spinning), never an error.
-/

/-- Python `int(s)`: digits of a decimal literal.  `none` when some
character is not a digit or the list is empty (`ValueError`). -/
def parseDigits : List Char → Option Nat
  | [] => none
  | cs => cs.foldl
      (fun acc c =>
        match acc with
        | none => none
        | some n => if c.isDigit then some (10 * n + (c.toNat - '0'.toNat)) else none)
      (some 0)

/-- Characters Python `int` strips from both ends of its argument. -/
def isPyWs (c : Char) : Bool :=
  c = ' ' || c = '\t' || c = '\n' || c = '\r' || c = '\x0b' || c = '\x0c'

/-- Python `int(s)` on a string: strip whitespace, optional sign, then
decimal digits; `none` models `ValueError`.  (Underscore digit grouping,
legal in Python literals, never occurs in the game's texts and is not
modelled.) -/
def pyInt (s : List Char) : Option Int :=
  let t := (s.dropWhile isPyWs).reverse.dropWhile isPyWs |>.reverse
  match t with
  | '-' :: rest => (parseDigits rest).map (fun n => -(n : Int))
  | '+' :: rest => (parseDigits rest).map (fun n => (n : Int))
  | _ => (parseDigits t).map (fun n => (n : Int))

/-- One pass of Python `s.replace(pat, '')` with structural fuel: scan
left to right, deleting each non-overlapping occurrence of `pat`.  The
fuel is instantiated with `s.length`, which always suffices. -/
def pyReplaceDelAux (pat : List Char) : Nat → List Char → List Char
  | 0, s => s
  | _ + 1, [] => []
  | fuel + 1, c :: rest =>
    if pat ≠ [] ∧ (c :: rest).take pat.length = pat then
      pyReplaceDelAux pat fuel ((c :: rest).drop pat.length)
    else
      c :: pyReplaceDelAux pat fuel rest

/-- Python `s.replace(pat, '')`: delete every non-overlapping occurrence
of `pat` in `s`, scanning left to right.  An empty `pat` leaves `s`
unchanged, as in Python when the replacement is also empty. -/
def pyReplaceDel (s pat : List Char) : List Char :=
  pyReplaceDelAux pat s.length s

/-- Python list indexing `xs[i]`: negative indices count from the end;
`none` models `IndexError`. -/
def pyIndex {α : Type} (xs : List α) (i : Int) : Option α :=
  let j : Int := if i < 0 then (xs.length : Int) + i else i
  if 0 ≤ j ∧ j < (xs.length : Int) then xs.get? j.toNat else none

/-- The rendered score container as `get_score` sees it:
`containerText` is `score.text` (which includes any child's text), and
`addition` is the text of the child of class score-addition when that
child exists. -/
structure ScoreDom where
  containerText : List Char
  addition : Option (List Char)
deriving DecidableEq

/-- `Game2048.get_score`: read the container text, delete the
score-addition child's text from it when the child is present
(`str.replace(addition_text, '')`), and parse the remainder with
`int(...)`.  `none` models the uncaught `ValueError` when the remainder
does not parse. -/
def get_score (d : ScoreDom) : Option Int :=
  let scoreText :=
    match d.addition with
    | some a => pyReplaceDel d.containerText a
    | none => d.containerText
  pyInt scoreText

/-- A rendered tile node as seen through the Session: its displayed
text and the value of its class attribute. -/
structure Node where
  text : List Char
  classAttr : List Char
deriving DecidableEq

/-- Is `pat` a contiguous substring of `s`?  Models Python
`pat in s` on strings. -/
def listHasSub (pat : List Char) : List Char → Bool
  | [] => pat.isEmpty
  | c :: rest => (c :: rest).take pat.length = pat || listHasSub pat rest

/-- The class marker distinguishing the merge-result node:
`'merged' in t.get_attribute('class')`. -/
def mergedChars : List Char := ['m', 'e', 'r', 'g', 'e', 'd']

/-- What one iteration of the per-cell retry loop of `get_state`
observes for one board position: either the list of nodes returned by
`find_elements_by_class_name('tile-position-...')`, or a
`StaleElementReferenceException` raised while accessing one of them
(the DOM was re-rendered concurrently). -/
inductive TileAttempt where
  | tiles (ts : List Node)
  | stale
deriving DecidableEq

/-- Exceptions the body of the retry loop can raise; both are caught by
the loop's `except` clauses. -/
inductive CellErr where
  | valueError
  | staleElem
deriving DecidableEq

/-- First node in `find_elements` order whose class attribute contains
the substring merged (the `for t in tiles: if 'merged' in ...` scan). -/
def firstMerged : List Node → Option Node
  | [] => none
  | t :: ts => if listHasSub mergedChars t.classAttr then some t else firstMerged ts

/-- One iteration of the `while tile_num is None` body of
`Game2048.get_state`, before exception handling: zero nodes means the
cell is empty (value 0); one node means `int(tiles[0].text)`; several
nodes mean scanning for the first merge-result node and parsing its
text, with `tile_num` left unset (`.ok none`) when no merge-result node
exists yet.  `ValueError` from `int(...)` and staleness surface as
`.error`. -/
def attemptOutcome : TileAttempt → Except CellErr (Option Int)
  | .stale => .error .staleElem
  | .tiles [] => .ok (some 0)
  | .tiles [t] =>
    match pyInt t.text with
    | some n => .ok (some n)
    | none => .error .valueError
  | .tiles (t1 :: t2 :: ts) =>
    match firstMerged (t1 :: t2 :: ts) with
    | none => .ok none
    | some t =>
      match pyInt t.text with
      | some n => .ok (some n)
      | none => .error .valueError

/-- One iteration of the retry loop with its `except ValueError` and
`except StaleElementReferenceException` handlers: an exception leaves
`tile_num` unset and the loop retries. -/
def resolveCellAttempt (a : TileAttempt) : Option Int :=
  match attemptOutcome a with
  | .ok r => r
  | .error _ => none

/-- The `while tile_num is None` loop for one cell, reading the stream
`att` of successive observations.  The loop itself is unbounded; the
fuel only truncates the model, with `none` meaning the loop is still
spinning after `fuel` iterations. -/
def resolveCell (att : Nat → TileAttempt) : Nat → Option Int
  | 0 => none
  | fuel + 1 =>
    match resolveCellAttempt (att 0) with
    | some v => some v
    | none => resolveCell (fun k => att (k + 1)) fuel

/-- One row of `Game2048.get_state`: the four cells of row `r` resolved
in column order (`att c` is the observation stream of the cell in
column `c`; the source looks it up by class
tile-position-(c+1)-(r+1)). -/
def extractRow (fuel : Nat) (att : Nat → Nat → TileAttempt) : Option (List Int) :=
  match resolveCell (att 0) fuel, resolveCell (att 1) fuel,
        resolveCell (att 2) fuel, resolveCell (att 3) fuel with
  | some a, some b, some c, some d => some [a, b, c, d]
  | _, _, _, _ => none

/-- `Game2048.get_state`: resolve all 16 cells; `dom r c` is the
observation stream of the cell at row `r`, column `c`.  Returns the
4×4 matrix once every cell has resolved; `none` means some cell's
retry loop is still spinning within the given fuel. -/
def get_state (fuel : Nat) (dom : Nat → Nat → Nat → TileAttempt) :
    Option (List (List Int)) :=
  match extractRow fuel (dom 0), extractRow fuel (dom 1),
        extractRow fuel (dom 2), extractRow fuel (dom 3) with
  | some r0, some r1, some r2, some r3 => some [r0, r1, r2, r3]
  | _, _, _, _ => none

/-- `Game2048.is_over`: one `find_element_by_class_name('game-over')`
call; presence of the marker yields true, `NoSuchElementException`
yields false.  No retry, no second lookup. -/
def is_over (marker : Option Node) : Bool :=
  match marker with
  | some _ => true
  | none => false

/-- Cell of a board matrix, row-major, defaulting to 0 outside. -/
def boardCell (b : List (List Int)) (r c : Nat) : Int :=
  (b.getD r []).getD c 0


/-- The four arrow-key command chains built in `Game2048.__init__`, in
list order: `Keys.UP`, `Keys.LEFT`, `Keys.DOWN`, `Keys.RIGHT`. -/
inductive Key where
  | up
  | left
  | down
  | right
deriving DecidableEq

/-- `self.actions`: the four-element Python list of prepared
`ActionChains`. -/
def actions : List Key := [.up, .left, .down, .right]

/-- Session interactions and waits performed by `Game2048.step`, in
order: a `get_score` read, a key-command `perform`, the
`time.sleep(delay)` settle wait, the `get_state` board extraction, and
the `is_over` termination check. -/
inductive Event where
  | scoreRead
  | keyPerform (k : Key)
  | sleep
  | boardExtract
  | termCheck
deriving DecidableEq

/-- Errors `step` can raise: `IndexError` from `self.actions[action]`
and `ValueError` from `int(...)` inside `get_score`. -/
inductive PyErr where
  | indexError
  | valueError
deriving DecidableEq

/-- The `info` mapping returned by `step`; the source always returns
the empty dict `{}`. -/
abbrev Info := List (List Char × List Char)

/-- Result of one `step` call: the returned tuple, a raised error, or
`hang` when `get_state`'s retry loop has not resolved within the
model's fuel (the real call would still be blocked inside it). -/
inductive StepOutcome where
  | ok (board : List (List Int)) (reward : Int) (done : Bool) (info : Info)
  | err (e : PyErr)
  | hang
deriving DecidableEq

/-- Everything the rendered surface supplies during one `step` call:
what the score container shows at the first and at the second
`get_score` call, the tile observation streams `get_state` reads after
the settle wait, and whether the game-over marker is present at the
`is_over` check. -/
structure Session where
  score1 : ScoreDom
  board : Nat → Nat → Nat → TileAttempt
  score2 : ScoreDom
  gameOver : Option Node

/-- `Game2048.step`, with the ordered trace of the interactions it
performs.  Mirrors the source line by line:
`prev_score = self.get_score()`, then `self.actions[action].perform()`
(the list indexing raises `IndexError` before any key is sent when
`action` is out of range), then `time.sleep(delay)` (the settle delay;
its float value only fixes the wait's duration and is not modelled),
then `state = self.get_state()`, `reward = self.get_score() -
prev_score`, `done = self.is_over()`, and finally
`return state, reward, done, {}`. -/
def step (fuel : Nat) (action : Int) (s : Session) : List Event × StepOutcome :=
  match get_score s.score1 with
  | none => ([.scoreRead], .err .valueError)
  | some prev =>
    match pyIndex actions action with
    | none => ([.scoreRead], .err .indexError)
    | some k =>
      match get_state fuel s.board with
      | none => ([.scoreRead, .keyPerform k, .sleep, .boardExtract], .hang)
      | some b =>
        match get_score s.score2 with
        | none =>
          ([.scoreRead, .keyPerform k, .sleep, .boardExtract, .scoreRead],
           .err .valueError)
        | some new =>
          ([.scoreRead, .keyPerform k, .sleep, .boardExtract, .scoreRead, .termCheck],
           .ok b (new - prev) (is_over s.gameOver) [])

/-! ## Shared helper definitions and lemmas -/

/-- Decimal digits of a natural number, most significant first;
the text a faithful rendering of score `u` displays. -/
def natChars (n : Nat) : List Char := Nat.toDigits 10 n

/-- The score container faithfully renders the underlying cumulative
score `u`: without the score-addition child the container text is the
decimal rendering of `u`; with the child, the combined text is that
rendering followed by the child's own text (the container's `.text`
includes children text). -/
def rendersScoreB (d : ScoreDom) (u : Nat) : Bool :=
  match d.addition with
  | none => d.containerText = natChars u
  | some a => d.containerText = natChars u ++ a

/-- The nodes accessible in one tile observation (none when the
attempt aborted with a staleness exception). -/
def attNodes : TileAttempt → List Node
  | .tiles ts => ts
  | .stale => []

/-- An all-empty board surface: every lookup finds zero tile nodes. -/
def emptyBoardDom : Nat → Nat → Nat → TileAttempt := fun _ _ _ => .tiles []

/-- The 4×4 zero matrix. -/
def zeroBoard : List (List Int) :=
  [[0, 0, 0, 0], [0, 0, 0, 0], [0, 0, 0, 0], [0, 0, 0, 0]]

/-- A quiet session: score 144 before the action, 152 after, empty
board, no game-over marker. -/
def sessA : Session :=
  ⟨⟨['1', '4', '4'], none⟩, emptyBoardDom, ⟨['1', '5', '2'], none⟩, none⟩

theorem pyIndex_actions_none (act : Int) (h : act < -4 ∨ 3 < act) :
    pyIndex actions act = none := by
  simp only [pyIndex, actions, List.length_cons, List.length_nil]
  split_ifs <;> first | rfl | (exfalso; omega)

theorem step_congr_index {a a' : Int} (fuel : Nat) (s : Session)
    (h : pyIndex actions a = pyIndex actions a') :
    step fuel a s = step fuel a' s := by
  unfold step
  simp only [h]

/-! ## Claims C1, C2, C7, C9, C10 -/

/-- C1, counterexample: calling `step` with action index 7 does raise
(an `IndexError` from `self.actions[7]`), but only after the Session
has already been contacted: the trace of the call contains the
`get_score` read performed by `prev_score = self.get_score()` before
the indexing, so the raise does not happen before any Session
interaction and no dedicated InvalidActionRequest check exists. -/
theorem claim_C1_counterexample :
    step 1 7 sessA = ([Event.scoreRead], StepOutcome.err PyErr.indexError) ∧
    (step 1 7 sessA).1 ≠ ([] : List Event) := by decide

/-- C1, amended: for every action index outside {-4, ..., 3} (the
indices Python accepts on the four-element action list), `step` raises
an `IndexError`, after exactly one Session interaction — the read of
the previous score — and before any key command, board element lookup
or further score read. -/
theorem claim_C1 (fuel : Nat) (act : Int) (s : Session) (p : Int)
    (hr : act < -4 ∨ 3 < act) (hs : get_score s.score1 = some p) :
    step fuel act s = ([Event.scoreRead], StepOutcome.err PyErr.indexError) := by
  unfold step
  simp only [hs, pyIndex_actions_none act hr]

/-- C1, witness: instantiating the amended claim at action index 5 on
the concrete session `sessA`. -/
theorem claim_C1_witness :
    ((5 : Int) < -4 ∨ 3 < (5 : Int)) ∧
    step 1 5 sessA = ([Event.scoreRead], StepOutcome.err PyErr.indexError) :=
  ⟨Or.inr (by norm_num), claim_C1 1 5 sessA 144 (Or.inr (by norm_num)) (by decide)⟩

/-- C2: with combined container text 12804 and score-addition child
text 4, `get_score` returns exactly 1280 — the child's text is deleted
from the parent text before the remainder is parsed — and returns
neither 12804 nor 4. -/
theorem claim_C2 :
    get_score ⟨['1', '2', '8', '0', '4'], some ['4']⟩ = some 1280 ∧
    get_score ⟨['1', '2', '8', '0', '4'], some ['4']⟩ ≠ some 12804 ∧
    get_score ⟨['1', '2', '8', '0', '4'], some ['4']⟩ ≠ some 4 := by decide

/-- C7: `is_over` returns true exactly when the game-over marker is
present in the rendered surface: one presence check, absence gives
false, presence gives true. -/
theorem claim_C7 (marker : Option Node) : is_over marker = marker.isSome := by
  cases marker <;> rfl

/-- C9: `get_score` deletes every occurrence of the child's text from
the combined text, not only the child's own contribution: with an
underlying cumulative score of 144 faithfully rendered together with a
score-addition child 4 (combined text 1444), the tracker returns 1,
not the true score 144. -/
theorem claim_C9 :
    rendersScoreB ⟨['1', '4', '4', '4'], some ['4']⟩ 144 = true ∧
    get_score ⟨['1', '4', '4', '4'], some ['4']⟩ = some 1 ∧
    get_score ⟨['1', '4', '4', '4'], some ['4']⟩ ≠ some 144 := by decide

/-- C10: every action index in {-4, -3, -2, -1} is accepted by the
indexing into the four-element action list (no `IndexError`), selects
the same key command as the index four higher, and makes `step` behave
identically to `step` at that index, on every session. -/
theorem claim_C10 (a : Int) (h1 : -4 ≤ a) (h2 : a < 0) :
    (pyIndex actions a).isSome = true ∧
    pyIndex actions a = pyIndex actions (a + 4) ∧
    ∀ (fuel : Nat) (s : Session), step fuel a s = step fuel (a + 4) s := by
  interval_cases a <;>
    exact ⟨by decide, by decide, fun fuel s => step_congr_index fuel s (by decide)⟩

/-- C10, witness: instantiating the claim at action index -3, which
behaves exactly like index 1 (the LEFT key). -/
theorem claim_C10_witness :
    (pyIndex actions (-3)).isSome = true ∧
    pyIndex actions (-3) = pyIndex actions (-3 + 4) ∧
    ∀ (fuel : Nat) (s : Session), step fuel (-3) s = step fuel (-3 + 4) s :=
  claim_C10 (-3) (by norm_num) (by norm_num)

/-! ## Lemmas about board extraction -/

theorem firstMerged_mem : ∀ {ts : List Node} {t : Node},
    firstMerged ts = some t → t ∈ ts := by
  intro ts
  induction ts with
  | nil => intro t h; exact absurd h (by simp [firstMerged])
  | cons a rest ih =>
    intro t h
    simp only [firstMerged] at h
    split_ifs at h with hc
    · cases h; exact List.mem_cons_self _ _
    · exact List.mem_cons_of_mem _ (ih h)

theorem resolveCellAttempt_sound {a : TileAttempt} {v : Int}
    (h : resolveCellAttempt a = some v) :
    v = 0 ∨ ∃ t, t ∈ attNodes a ∧ pyInt t.text = some v := by
  cases a with
  | stale => exact absurd h (by simp [resolveCellAttempt, attemptOutcome])
  | tiles ts =>
    cases ts with
    | nil =>
      left
      simp only [resolveCellAttempt, attemptOutcome, Option.some.injEq] at h
      omega
    | cons t ts1 =>
      cases ts1 with
      | nil =>
        cases hp : pyInt t.text with
        | none => simp [resolveCellAttempt, attemptOutcome, hp] at h
        | some n =>
          right
          simp only [resolveCellAttempt, attemptOutcome, hp, Option.some.injEq] at h
          refine ⟨t, by simp [attNodes], ?_⟩
          rw [hp, h]
      | cons t2 rest =>
        cases hm : firstMerged (t :: t2 :: rest) with
        | none => simp [resolveCellAttempt, attemptOutcome, hm] at h
        | some tm =>
          cases hp : pyInt tm.text with
          | none => simp [resolveCellAttempt, attemptOutcome, hm, hp] at h
          | some n =>
            right
            simp only [resolveCellAttempt, attemptOutcome, hm, hp,
              Option.some.injEq] at h
            refine ⟨tm, ?_, ?_⟩
            · simpa [attNodes] using firstMerged_mem hm
            · rw [hp, h]

theorem resolveCell_of_first :
    ∀ (n : Nat) (att : Nat → TileAttempt) (v : Int) (fuel : Nat),
      (∀ m, m < n → resolveCellAttempt (att m) = none) →
      resolveCellAttempt (att n) = some v → n < fuel →
      resolveCell att fuel = some v := by
  intro n
  induction n with
  | zero =>
    intro att v fuel _ hn hf
    cases fuel with
    | zero => omega
    | succ f => simp [resolveCell, hn]
  | succ n ih =>
    intro att v fuel hm hn hf
    cases fuel with
    | zero => omega
    | succ f =>
      have h0 : resolveCellAttempt (att 0) = none := hm 0 (Nat.succ_pos n)
      simp only [resolveCell, h0]
      exact ih (fun k => att (k + 1)) v f
        (fun m hmlt => hm (m + 1) (Nat.succ_lt_succ hmlt))
        hn (Nat.lt_of_succ_lt_succ hf)

theorem resolveCell_inv :
    ∀ (fuel : Nat) (att : Nat → TileAttempt) (v : Int),
      resolveCell att fuel = some v →
      ∃ n, n < fuel ∧ (∀ m, m < n → resolveCellAttempt (att m) = none) ∧
        resolveCellAttempt (att n) = some v := by
  intro fuel
  induction fuel with
  | zero => intro att v h; exact absurd h (by simp [resolveCell])
  | succ f ih =>
    intro att v h
    simp only [resolveCell] at h
    cases h0 : resolveCellAttempt (att 0) with
    | some w =>
      rw [h0] at h
      simp only [Option.some.injEq] at h
      subst h
      exact ⟨0, Nat.succ_pos f, fun m hm => absurd hm (Nat.not_lt_zero m), h0⟩
    | none =>
      rw [h0] at h
      obtain ⟨n, hn, hall, hsucc⟩ := ih _ v h
      refine ⟨n + 1, Nat.succ_lt_succ hn, ?_, hsucc⟩
      intro m hm
      cases m with
      | zero => exact h0
      | succ k => exact hall k (Nat.lt_of_succ_lt_succ hm)

theorem extractRow_inv {fuel : Nat} {att : Nat → Nat → TileAttempt} {row : List Int}
    (h : extractRow fuel att = some row) :
    ∃ x0 x1 x2 x3, row = [x0, x1, x2, x3] ∧
      resolveCell (att 0) fuel = some x0 ∧ resolveCell (att 1) fuel = some x1 ∧
      resolveCell (att 2) fuel = some x2 ∧ resolveCell (att 3) fuel = some x3 := by
  unfold extractRow at h
  split at h
  · rename_i x0 x1 x2 x3 h0 h1 h2 h3
    cases h
    exact ⟨x0, x1, x2, x3, rfl, h0, h1, h2, h3⟩
  · exact absurd h (by simp)

theorem get_state_inv {fuel : Nat} {dom : Nat → Nat → Nat → TileAttempt}
    {b : List (List Int)} (h : get_state fuel dom = some b) :
    ∃ r0 r1 r2 r3, b = [r0, r1, r2, r3] ∧
      extractRow fuel (dom 0) = some r0 ∧ extractRow fuel (dom 1) = some r1 ∧
      extractRow fuel (dom 2) = some r2 ∧ extractRow fuel (dom 3) = some r3 := by
  unfold get_state at h
  split at h
  · rename_i r0 r1 r2 r3 h0 h1 h2 h3
    cases h
    exact ⟨r0, r1, r2, r3, rfl, h0, h1, h2, h3⟩
  · exact absurd h (by simp)

theorem extractRow_cell {fuel : Nat} {att : Nat → Nat → TileAttempt} {row : List Int}
    (h : extractRow fuel att = some row) {c : Nat} (hc : c < 4) :
    resolveCell (att c) fuel = some (row.getD c 0) := by
  obtain ⟨x0, x1, x2, x3, hrow, h0, h1, h2, h3⟩ := extractRow_inv h
  subst hrow
  interval_cases c
  · simpa using h0
  · simpa using h1
  · simpa using h2
  · simpa using h3

theorem get_state_cell {fuel : Nat} {dom : Nat → Nat → Nat → TileAttempt}
    {b : List (List Int)} (h : get_state fuel dom = some b)
    {r c : Nat} (hr : r < 4) (hc : c < 4) :
    resolveCell (dom r c) fuel = some (boardCell b r c) := by
  obtain ⟨r0, r1, r2, r3, hb, h0, h1, h2, h3⟩ := get_state_inv h
  subst hb
  interval_cases r
  · simpa [boardCell] using extractRow_cell h0 hc
  · simpa [boardCell] using extractRow_cell h1 hc
  · simpa [boardCell] using extractRow_cell h2 hc
  · simpa [boardCell] using extractRow_cell h3 hc

/-! ## Claims C3, C4, C5, C6, C8 -/

/-- C3: within one `step` call, the operations occur in exactly this
order — previous score read, key command for the action, settle sleep,
board extraction, new score read, termination check — and the call
returns `(board, new_score - previous_score, done, info)` with `info`
the empty mapping. -/
theorem claim_C3 (fuel : Nat) (act : Int) (s : Session) (prevScore : Int)
    (k : Key) (b : List (List Int)) (newScore : Int)
    (h1 : get_score s.score1 = some prevScore) (h2 : pyIndex actions act = some k)
    (h3 : get_state fuel s.board = some b)
    (h4 : get_score s.score2 = some newScore) :
    step fuel act s =
      ([Event.scoreRead, Event.keyPerform k, Event.sleep, Event.boardExtract,
        Event.scoreRead, Event.termCheck],
       StepOutcome.ok b (newScore - prevScore) (is_over s.gameOver) []) := by
  unfold step
  simp only [h1, h2, h3, h4]

/-- C3, witness: one concrete `step(1, ...)` call on session `sessA`
(score 144 then 152, empty board, no game-over marker). -/
theorem claim_C3_witness :
    step 1 1 sessA =
      ([Event.scoreRead, Event.keyPerform Key.left, Event.sleep,
        Event.boardExtract, Event.scoreRead, Event.termCheck],
       StepOutcome.ok zeroBoard (152 - 144) (is_over sessA.gameOver) []) ∧
    (152 - 144 : Int) = 8 ∧ is_over sessA.gameOver = false :=
  ⟨claim_C3 1 1 sessA 144 Key.left zeroBoard 152
      (by decide) (by decide) (by decide) (by decide),
   by norm_num, by decide⟩

/-- A board surface whose only tile displays the text -2: Python
`int('-2')` parses it, so the extracted entry is negative. -/
def negDom : Nat → Nat → Nat → TileAttempt := fun r c _ =>
  if r = 0 ∧ c = 0 then .tiles [⟨['-', '2'], ['t', 'i', 'l', 'e']⟩] else .tiles []

/-- C4, counterexample: `get_state` itself never validates the sign of
a parsed tile text, so a rendered node displaying -2 yields a board
with a negative entry; the claimed non-negativity of every entry does
not hold for all boards `get_state` can return. -/
theorem claim_C4_counterexample :
    get_state 1 negDom =
      some [[-2, 0, 0, 0], [0, 0, 0, 0], [0, 0, 0, 0], [0, 0, 0, 0]] ∧
    ¬ (0 ≤ boardCell [[-2, 0, 0, 0], [0, 0, 0, 0], [0, 0, 0, 0], [0, 0, 0, 0]] 0 0) := by
  decide

/-- C4, amended: every board returned by `get_state` has exactly 4 rows
of exactly 4 columns with every entry present, absence of a tile maps
to 0, and every entry is non-negative provided every tile text the
surface displays parses to a non-negative integer (the extractor takes
parsed values as they are and never checks the sign itself). -/
theorem claim_C4 (fuel : Nat) (dom : Nat → Nat → Nat → TileAttempt)
    (b : List (List Int)) (h : get_state fuel dom = some b) :
    b.length = 4 ∧ (∀ row, row ∈ b → row.length = 4) ∧
    resolveCellAttempt (TileAttempt.tiles []) = some 0 ∧
    ((∀ r c n t v, t ∈ attNodes (dom r c n) → pyInt t.text = some v → 0 ≤ v) →
      ∀ row, row ∈ b → ∀ v, v ∈ row → 0 ≤ v) := by
  obtain ⟨r0, r1, r2, r3, hb, h0, h1, h2, h3⟩ := get_state_inv h
  subst hb
  refine ⟨rfl, ?_, by decide, ?_⟩
  · intro row hrow
    simp only [List.mem_cons, List.not_mem_nil, or_false] at hrow
    rcases hrow with rfl | rfl | rfl | rfl
    · obtain ⟨x0, x1, x2, x3, hre, -, -, -, -⟩ := extractRow_inv h0
      subst hre; rfl
    · obtain ⟨x0, x1, x2, x3, hre, -, -, -, -⟩ := extractRow_inv h1
      subst hre; rfl
    · obtain ⟨x0, x1, x2, x3, hre, -, -, -, -⟩ := extractRow_inv h2
      subst hre; rfl
    · obtain ⟨x0, x1, x2, x3, hre, -, -, -, -⟩ := extractRow_inv h3
      subst hre; rfl
  · intro hpos row hrow v hv
    have cellPos : ∀ (r c : Nat) (w : Int),
        resolveCell (dom r c) fuel = some w → 0 ≤ w := by
      intro r c w hw
      obtain ⟨n, -, -, hn⟩ := resolveCell_inv fuel (dom r c) w hw
      rcases resolveCellAttempt_sound hn with hz | ⟨t, ht, hp⟩
      · omega
      · exact hpos r c n t w ht hp
    have rowPos : ∀ (r : Nat) (rowr : List Int),
        extractRow fuel (dom r) = some rowr → v ∈ rowr → 0 ≤ v := by
      intro r rowr hre hv'
      obtain ⟨x0, x1, x2, x3, hx, hc0, hc1, hc2, hc3⟩ := extractRow_inv hre
      subst hx
      simp only [List.mem_cons, List.not_mem_nil, or_false] at hv'
      rcases hv' with rfl | rfl | rfl | rfl
      exacts [cellPos r 0 v hc0, cellPos r 1 v hc1, cellPos r 2 v hc2,
        cellPos r 3 v hc3]
    simp only [List.mem_cons, List.not_mem_nil, or_false] at hrow
    rcases hrow with rfl | rfl | rfl | rfl
    exacts [rowPos 0 _ h0 hv, rowPos 1 _ h1 hv, rowPos 2 _ h2 hv, rowPos 3 _ h3 hv]

/-- C4, witness: the amended claim instantiated on the all-empty board
surface, whose extraction is the 4×4 zero matrix. -/
theorem claim_C4_witness :
    zeroBoard.length = 4 ∧ (∀ row, row ∈ zeroBoard → row.length = 4) ∧
    resolveCellAttempt (TileAttempt.tiles []) = some 0 ∧
    (∀ row, row ∈ zeroBoard → ∀ v, v ∈ row → 0 ≤ v) := by
  have h := claim_C4 1 emptyBoardDom zeroBoard (by decide)
  refine ⟨h.1, h.2.1, h.2.2.1, h.2.2.2 ?_⟩
  intro r c n t v ht hp
  simp [emptyBoardDom, attNodes] at ht

/-- A merge-result node displaying 4 (its class attribute carries the
merged marker). -/
def mergedNode4 : Node :=
  ⟨['4'], ['t', 'i', 'l', 'e', ' ', 'm', 'e', 'r', 'g', 'e', 'd']⟩

/-- A stale pre-merge node still displaying 2, without the merged
marker. -/
def plainNode2 : Node := ⟨['2'], ['t', 'i', 'l', 'e']⟩

/-- A board surface mid-merge at position (0,0): the first observation
finds two stale nodes and no merge result yet; the second finds the
stale node together with the merge-result node displaying 4. -/
def mergeDom : Nat → Nat → Nat → TileAttempt := fun r c n =>
  if r = 0 ∧ c = 0 then
    (if n = 0 then .tiles [plainNode2, plainNode2]
     else .tiles [plainNode2, mergedNode4])
  else .tiles []

/-- C5: with several nodes at one position, the cell resolves to the
parsed text of the first node flagged as the merge result, and is
retried when no merge-result node exists yet; in particular a
merge-result node showing 4 next to a stale node showing 2 yields 4
(in either order), and a full extraction on the mid-merge surface
returns 4 at that position after retrying past the first
observation. -/
theorem claim_C5 :
    (∀ (ts : List Node) (t : Node), 2 ≤ ts.length → firstMerged ts = some t →
        resolveCellAttempt (TileAttempt.tiles ts) = pyInt t.text) ∧
    (∀ ts : List Node, 2 ≤ ts.length → firstMerged ts = none →
        resolveCellAttempt (TileAttempt.tiles ts) = none) ∧
    resolveCellAttempt (TileAttempt.tiles [plainNode2, mergedNode4]) = some 4 ∧
    resolveCellAttempt (TileAttempt.tiles [mergedNode4, plainNode2]) = some 4 ∧
    get_state 2 mergeDom =
      some [[4, 0, 0, 0], [0, 0, 0, 0], [0, 0, 0, 0], [0, 0, 0, 0]] := by
  refine ⟨?_, ?_, by decide, by decide, by decide⟩
  · intro ts t h2 hm
    cases ts with
    | nil => simp at h2
    | cons t1 ts1 =>
      cases ts1 with
      | nil => simp at h2
      | cons t2 rest =>
        simp only [resolveCellAttempt, attemptOutcome, hm]
        cases hp : pyInt t.text <;> simp [hp]
  · intro ts h2 hm
    cases ts with
    | nil => simp at h2
    | cons t1 ts1 =>
      cases ts1 with
      | nil => simp at h2
      | cons t2 rest => simp [resolveCellAttempt, attemptOutcome, hm]

/-- C5, witness: the general tie-break part instantiated on the
two-node observation whose merge result is `mergedNode4`. -/
theorem claim_C5_witness :
    2 ≤ ([plainNode2, mergedNode4] : List Node).length ∧
    resolveCellAttempt (TileAttempt.tiles [plainNode2, mergedNode4]) =
      pyInt mergedNode4.text :=
  ⟨by decide,
   claim_C5.1 [plainNode2, mergedNode4] mergedNode4 (by decide) (by decide)⟩

/-- A cell observation stream that fails once (stale reference) and
then finds an empty cell. -/
def attSeq : Nat → TileAttempt := fun n => if n = 0 then .stale else .tiles []

/-- C6: transient per-cell failures are never surfaced by `get_state`:
an iteration that raises (unparseable text or stale reference) leaves
the cell unresolved and is retried; a cell whose n-th observation is
the first to resolve yields exactly that observation's value once the
retry loop has run past n; and every cell of a returned board carries
the value of the first observation of that cell that resolved — never
a substituted guess. -/
theorem claim_C6 :
    (∀ (a : TileAttempt) (e : CellErr), attemptOutcome a = .error e →
        resolveCellAttempt a = none) ∧
    (∀ (att : Nat → TileAttempt) (n : Nat) (v : Int) (fuel : Nat),
        (∀ m, m < n → resolveCellAttempt (att m) = none) →
        resolveCellAttempt (att n) = some v → n < fuel →
        resolveCell att fuel = some v) ∧
    (∀ (fuel : Nat) (dom : Nat → Nat → Nat → TileAttempt) (b : List (List Int))
        (r c : Nat), get_state fuel dom = some b → r < 4 → c < 4 →
        ∃ n, n < fuel ∧ (∀ m, m < n → resolveCellAttempt (dom r c m) = none) ∧
          resolveCellAttempt (dom r c n) = some (boardCell b r c)) := by
  refine ⟨?_, ?_, ?_⟩
  · intro a e h
    simp [resolveCellAttempt, h]
  · intro att n v fuel hm hn hf
    exact resolveCell_of_first n att v fuel hm hn hf
  · intro fuel dom b r c h hr hc
    exact resolveCell_inv fuel (dom r c) _ (get_state_cell h hr hc)

/-- C6, witness: the three parts instantiated on concrete data — a
stale observation resolves to nothing, the fail-once stream `attSeq`
resolves to 0 on its second observation, and the zero board extracted
from the all-empty surface has its (0,0) cell backed by a first
resolving observation. -/
theorem claim_C6_witness :
    resolveCellAttempt TileAttempt.stale = none ∧
    resolveCell attSeq 2 = some 0 ∧
    (∃ n, n < 1 ∧ (∀ m, m < n → resolveCellAttempt (emptyBoardDom 0 0 m) = none) ∧
      resolveCellAttempt (emptyBoardDom 0 0 n) = some (boardCell zeroBoard 0 0)) := by
  refine ⟨claim_C6.1 TileAttempt.stale CellErr.staleElem rfl, ?_, ?_⟩
  · refine claim_C6.2.1 attSeq 1 0 2 ?_ (by decide) (by norm_num)
    intro m hm
    have hm0 : m = 0 := by omega
    subst hm0
    decide
  · exact claim_C6.2.2 1 emptyBoardDom zeroBoard 0 0 (by decide)
      (by norm_num) (by norm_num)

/-- A session whose underlying cumulative score goes from 144 to 148:
before the action the container shows 144 with no score-addition
child; after the action it shows 148 with a child displaying the
increment 4, so the combined text is 1484. -/
def sessC8 : Session :=
  ⟨⟨['1', '4', '4'], none⟩, emptyBoardDom,
   ⟨['1', '4', '8', '4'], some ['4']⟩, none⟩

/-- C8, counterexample: both score readings faithfully render an
underlying cumulative score that only increases (144 then 148), yet
the step's computed reward is 18 - 144 = -126 < 0, because deleting
the child text 4 from 1484 also deletes the digit 4 inside 148. -/
theorem claim_C8_counterexample :
    rendersScoreB sessC8.score1 144 = true ∧
    rendersScoreB sessC8.score2 148 = true ∧
    (144 : Nat) ≤ 148 ∧
    (step 1 0 sessC8).2 = StepOutcome.ok zeroBoard (-126) false [] ∧
    (-126 : Int) < 0 := by decide

/-- C8, amended: a step's reward is the difference of the two values
`get_score` returns inside that step, so it is non-negative whenever
those returned values are non-decreasing; the annotation-stripping
deletion in `get_score` can return a smaller value than an earlier
read even while the underlying score never decreases, so rewards can
be negative. -/
theorem claim_C8 (fuel : Nat) (act : Int) (s : Session)
    (prevScore newScore : Int) (k : Key) (b : List (List Int))
    (h1 : get_score s.score1 = some prevScore) (h2 : pyIndex actions act = some k)
    (h3 : get_state fuel s.board = some b)
    (h4 : get_score s.score2 = some newScore) (h5 : prevScore ≤ newScore) :
    (step fuel act s).2 =
      StepOutcome.ok b (newScore - prevScore) (is_over s.gameOver) [] ∧
    0 ≤ newScore - prevScore := by
  constructor
  · unfold step
    simp only [h1, h2, h3, h4]
  · omega

/-- C8, witness: the amended claim instantiated on session `sessA`,
whose two score reads return 144 and then 152. -/
theorem claim_C8_witness :
    (step 1 2 sessA).2 =
      StepOutcome.ok zeroBoard (152 - 144) (is_over sessA.gameOver) [] ∧
    0 ≤ (152 - 144 : Int) :=
  claim_C8 1 2 sessA 144 152 Key.down zeroBoard
    (by decide) (by decide) (by decide) (by decide) (by norm_num)
